import Mathlib

/-!
Verification development for the `pambox` ideal-observer module
(`pambox/idealobs.py`).

The Python module converts SNRenv metric values to percent-correct
predictions through a statistical ideal observer (`IdealObs`), fits the
observer parameters `k`, `q`, `sigma_s` (and optionally `m`) to data with
`scipy.optimize.leastsq`, and provides a Gaussian psychometric function
`psy_fn` built on `scipy.special.erfc`.

The embedding models floating-point numbers as real numbers.  The external
scipy functions `norm.cdf`, `norm.ppf` and `erfc` are given their exact
mathematical definitions as Gaussian integrals.  `scipy.optimize.leastsq`
is an external iterative optimizer; `fit_obs` is therefore parameterized by
the optimizer's input/output behaviour (the residual function and initial
vector it receives, and the parameter vector it returns), which is exactly
the interface the Python code uses.  NumPy's elementwise broadcasting and
its NaN results for fractional powers of negative numbers are modelled
explicitly where a claim depends on them.
-/

open MeasureTheory Set Filter Topology

open scoped Classical

namespace Pambox

/-! ### Definitions -/

/-- The unnormalized standard normal density `exp (-t² / 2)`. -/
noncomputable def gauss (t : ℝ) : ℝ := Real.exp (-t ^ 2 / 2)

/-- The cumulative integral of the unnormalized density up to `x`. -/
noncomputable def gaussInt (x : ℝ) : ℝ := ∫ t in Iic x, gauss t

/-- The standard normal cumulative distribution function, the mathematical
meaning of `scipy.stats.norm.cdf` with default location and scale. -/
noncomputable def stdNormCdf (x : ℝ) : ℝ := gaussInt x / Real.sqrt (2 * Real.pi)

/-- The standard normal quantile function, the mathematical meaning of
`scipy.stats.norm.ppf`: a point where the cumulative distribution takes the
value `p`, when one exists. -/
noncomputable def normPpf (p : ℝ) : ℝ :=
  if h : ∃ x, stdNormCdf x = p then h.choose else 0

/-- `scipy.stats.norm.cdf` with explicit location `mu` and scale `s`. -/
noncomputable def normCdf (x mu s : ℝ) : ℝ := stdNormCdf ((x - mu) / s)

/-- `scipy.special.erfc`: `erfc z = (2 / √π) ∫_z^∞ exp (-t²) dt`. -/
noncomputable def erfc (z : ℝ) : ℝ :=
  2 / Real.sqrt Real.pi * ∫ t in Ioi z, Real.exp (-t ^ 2)

/-- The mutable parameter state of `IdealObs`. -/
structure IdealObs where
  k : ℝ
  q : ℝ
  sigma_s : ℝ
  m : ℝ

/-- `IdealObs.__init__`: stores the four given values; there is no
validation anywhere in the constructor. -/
def IdealObs.init (k q sigma_s m : ℝ) : IdealObs := ⟨k, q, sigma_s, m⟩

/-- `IdealObs()` with all defaults: `k = sqrt(1.2)`, `q = 0.5`,
`sigma_s = 0.6`, `m = 8000`. -/
noncomputable def IdealObs.initDefault : IdealObs :=
  IdealObs.init (Real.sqrt 1.2) 0.5 0.6 8000

/-- Scalar body of the static method `IdealObs._snrenv_to_pc`, transcribed
line by line: `Un = norm.ppf(1 - 1/m)`, `sn = 1.28255/Un`,
`un = Un + 0.577/Un`, `dp = k * snrenv ** q`, and the result is
`norm.cdf(dp, un, sqrt(sigma_s² + sn²)) * 100`. -/
noncomputable def snrenv_to_pc_scalar (x k q sigma_s m : ℝ) : ℝ :=
  let Un := normPpf (1 - 1 / m)
  let sn := 1.28255 / Un
  let un := Un + 0.577 / Un
  let dp := k * x ^ q
  normCdf dp un (Real.sqrt (sigma_s ^ 2 + sn ^ 2)) * 100

/-- `IdealObs._snrenv_to_pc` on an array of metric values (elementwise, as
numpy evaluates the vectorized expression). -/
noncomputable def snrenv_to_pc (xs : List ℝ) (k q sigma_s m : ℝ) : List ℝ :=
  xs.map fun x => snrenv_to_pc_scalar x k q sigma_s m

/-- The statistical transform exactly as the specification words it: identical
to the code except that the bias-correction shift uses the constant `0.5772`
(`un = Un + 0.5772/Un`) where the code uses `0.577`. -/
noncomputable def snrenv_to_pc_spec (xs : List ℝ) (k q sigma_s m : ℝ) : List ℝ :=
  xs.map fun x =>
    100 * normCdf (k * x ^ q)
      (normPpf (1 - 1 / m) + 0.5772 / normPpf (1 - 1 / m))
      (Real.sqrt (sigma_s ^ 2 + (1.28255 / normPpf (1 - 1 / m)) ^ 2))

/-- Floating-point refinement of one element of `_snrenv_to_pc`: numpy
evaluates `snrenv ** q` elementwise, and a negative base with a non-integral
exponent yields NaN, which then propagates through `k * _`, the subtraction
and `norm.cdf` to that element of the output; `none` stands for NaN.  For a
base that is not in that domain-error case the element is the real value
computed by the scalar transform. -/
noncomputable def snrenv_to_pc_elt (x k q sigma_s m : ℝ) : Option ℝ :=
  if x < 0 ∧ ∀ n : ℤ, (n : ℝ) ≠ q then none
  else some (snrenv_to_pc_scalar x k q sigma_s m)

/-- Elementwise floating-point view of `_snrenv_to_pc` on an array, with NaN
tracked as `none`. -/
noncomputable def snrenv_to_pc_float (xs : List ℝ) (k q sigma_s m : ℝ) :
    List (Option ℝ) :=
  xs.map fun x => snrenv_to_pc_elt x k q sigma_s m

/-- Elementwise subtraction of two 1-D numpy arrays with broadcasting: equal
lengths subtract pointwise, a length-1 operand is broadcast, and any other
length combination raises a `ValueError` (modelled as `none`). -/
def npSub (a b : List ℝ) : Option (List ℝ) :=
  if a.length = b.length then some (List.zipWith (fun x y => x - y) a b)
  else if b.length = 1 then some (a.map fun x => x - b.headI)
  else if a.length = 1 then some (b.map fun y => a.headI - y)
  else none

/-- Truthiness of an optional float argument, exactly as Python evaluates
`if sigma_s:` and `if not m:`: `None` and `0.0` are falsy, every other float
is truthy. -/
def truthy (o : Option ℝ) : Prop :=
  match o with
  | none => False
  | some v => v ≠ 0

/-- The local variable `m` inside `fit_obs` after the `if not m:` block: the
supplied value when it is truthy, otherwise the stored `self.m`. -/
noncomputable def fitM (obs : IdealObs) (mo : Option ℝ) : ℝ :=
  if truthy mo then mo.getD 0 else obs.m

/-- The residual lambda `errfc` of the fixed-`sigma_s` branch of `fit_obs`:
`p ↦ _snrenv_to_pc(snrenv, p[0], p[1], sigma_s, m) - data`. -/
noncomputable def errfcFixed (xs ys : List ℝ) (s m : ℝ) :
    List ℝ → Option (List ℝ) :=
  fun p => npSub (snrenv_to_pc xs (p.getD 0 0) (p.getD 1 0) s m) ys

/-- The residual lambda `errfc` of the free-`sigma_s` branch of `fit_obs`:
`p ↦ _snrenv_to_pc(snrenv, p[0], p[1], p[2], m) - data`. -/
noncomputable def errfcFree (xs ys : List ℝ) (m : ℝ) :
    List ℝ → Option (List ℝ) :=
  fun p => npSub (snrenv_to_pc xs (p.getD 0 0) (p.getD 1 0) (p.getD 2 0) m) ys

/-- `IdealObs.fit_obs`.  The external optimizer `scipy.optimize.leastsq` is
passed in as `leastsq`: it receives exactly what the Python call passes (the
residual function and the initial vector `p0`) and produces the parameter
vector `res` whose components the method then stores unconditionally.
Before iterating, `leastsq` evaluates the residual once at `p0` to learn the
residual length `M`.  Two exceptions can arise there: if the two arrays
cannot be broadcast together, that first evaluation raises a `ValueError`;
and if the number `N` of free parameters (2 in the fixed-`sigma_s` branch, 3
in the free branch) exceeds `M`, `leastsq` raises
`TypeError: Improper input: N must not exceed M`.  Either exception
propagates out of `fit_obs`, and the object is left in the state it had at
that moment — the `error` case carries that state.  The `ok` case is the
returned `self`. -/
noncomputable def IdealObs.fit_obs (obs : IdealObs) (snrenv pcdata : List ℝ)
    (sigma_s m : Option ℝ)
    (leastsq : (List ℝ → Option (List ℝ)) → List ℝ → List ℝ) :
    Except IdealObs IdealObs :=
  let mv := fitM obs m
  let obs1 : IdealObs := { obs with m := mv }
  if truthy sigma_s then
    let sv := sigma_s.getD 0
    let errfc := errfcFixed snrenv pcdata sv mv
    match errfc [obs.k, obs.q] with
    | none => Except.error obs1
    | some r =>
      if 2 ≤ r.length then
        let res := leastsq errfc [obs.k, obs.q]
        Except.ok { obs1 with k := res.getD 0 0, q := res.getD 1 0, sigma_s := sv }
      else Except.error obs1
  else
    let errfc := errfcFree snrenv pcdata mv
    match errfc [obs.k, obs.q, obs.sigma_s] with
    | none => Except.error obs1
    | some r =>
      if 3 ≤ r.length then
        let res := leastsq errfc [obs.k, obs.q, obs.sigma_s]
        Except.ok { obs1 with k := res.getD 0 0, q := res.getD 1 0,
                              sigma_s := res.getD 2 0 }
      else Except.error obs1

/-- The object state after a `fit_obs` call, whether it returned normally or
an exception propagated. -/
def afterFit : Except IdealObs IdealObs → IdealObs
  | Except.error s => s
  | Except.ok s => s

/-- `psy_fn`: `100 * erfc(-(x - mu) / (sqrt(2) * sigma)) / 2`, elementwise
over the array `x`. -/
noncomputable def psy_fn (xs : List ℝ) (mu sigma : ℝ) : List ℝ :=
  xs.map fun x => 100 * erfc (-(x - mu) / (Real.sqrt 2 * sigma)) / 2

/-! ### Properties of the Gaussian density and its integrals -/

lemma gauss_apply (t : ℝ) : gauss t = Real.exp (-(1 / 2 : ℝ) * t ^ 2) := by
  unfold gauss; ring_nf

lemma gauss_pos (t : ℝ) : 0 < gauss t := Real.exp_pos _

lemma gauss_nonneg (t : ℝ) : 0 ≤ gauss t := (gauss_pos t).le

lemma gauss_le_one (t : ℝ) : gauss t ≤ 1 := by
  rw [gauss, Real.exp_le_one_iff]
  nlinarith [sq_nonneg t]

lemma gauss_even (t : ℝ) : gauss (-t) = gauss t := by
  unfold gauss; rw [neg_pow]; norm_num

lemma integrable_gauss : Integrable gauss := by
  have h : gauss = fun t : ℝ => Real.exp (-(1 / 2 : ℝ) * t ^ 2) := funext gauss_apply
  rw [h]
  exact integrable_exp_neg_mul_sq (by norm_num)

lemma integral_gauss_total : (∫ t : ℝ, gauss t) = Real.sqrt (2 * Real.pi) := by
  have h : gauss = fun t : ℝ => Real.exp (-(1 / 2 : ℝ) * t ^ 2) := funext gauss_apply
  rw [h, integral_gaussian]
  congr 1
  rw [div_div_eq_mul_div, div_one, mul_comm]

lemma gaussInt_mono : Monotone gaussInt := by
  intro a b hab
  exact setIntegral_mono_set integrable_gauss.integrableOn
    (Eventually.of_forall fun t => gauss_nonneg t)
    (HasSubset.Subset.eventuallyLE (Iic_subset_Iic.mpr hab))

lemma gaussInt_sub (a b : ℝ) :
    gaussInt b - gaussInt a = ∫ t in a..b, gauss t :=
  intervalIntegral.integral_Iic_sub_Iic integrable_gauss.integrableOn
    integrable_gauss.integrableOn

lemma gaussInt_strictMono : StrictMono gaussInt := by
  intro a b hab
  have h : 0 < gaussInt b - gaussInt a := by
    rw [gaussInt_sub]
    exact intervalIntegral.intervalIntegral_pos_of_pos
      integrable_gauss.intervalIntegrable gauss_pos hab
  linarith

lemma gaussInt_diff_le {a b : ℝ} (hab : a ≤ b) :
    gaussInt b - gaussInt a ≤ b - a := by
  rw [gaussInt_sub]
  calc (∫ t in a..b, gauss t) ≤ ∫ _ in a..b, (1 : ℝ) :=
        intervalIntegral.integral_mono_on hab integrable_gauss.intervalIntegrable
          intervalIntegrable_const (fun t _ => gauss_le_one t)
    _ = b - a := by simp

lemma continuous_gaussInt : Continuous gaussInt := by
  have hlip : LipschitzWith 1 gaussInt := by
    apply LipschitzWith.of_dist_le_mul
    intro a b
    rw [NNReal.coe_one, one_mul, Real.dist_eq, Real.dist_eq]
    rcases le_total a b with h | h
    · rw [abs_sub_comm, abs_of_nonneg (sub_nonneg.mpr (gaussInt_mono h)),
        abs_sub_comm, abs_of_nonneg (sub_nonneg.mpr h)]
      exact gaussInt_diff_le h
    · rw [abs_of_nonneg (sub_nonneg.mpr (gaussInt_mono h)),
        abs_of_nonneg (sub_nonneg.mpr h)]
      exact gaussInt_diff_le h
  exact hlip.continuous

lemma gaussInt_zero : gaussInt 0 = Real.sqrt (2 * Real.pi) / 2 := by
  have hrefl : gaussInt 0 = ∫ t in Ioi (0 : ℝ), gauss t := by
    have h := integral_comp_neg_Iic (0 : ℝ) gauss
    rw [neg_zero] at h
    rw [gaussInt, ← h]
    exact setIntegral_congr_fun measurableSet_Iic fun t _ => (gauss_even t).symm
  have hsplit := intervalIntegral.integral_Iic_add_Ioi (b := (0 : ℝ))
    integrable_gauss.integrableOn integrable_gauss.integrableOn
  rw [integral_gauss_total] at hsplit
  have h0 : gaussInt 0 = ∫ t in Iic (0 : ℝ), gauss t := rfl
  linarith [hrefl, hsplit, h0]

lemma tendsto_gaussInt_nat :
    Tendsto (fun n : ℕ => gaussInt n) atTop (𝓝 (Real.sqrt (2 * Real.pi))) := by
  have hU : ⋃ n : ℕ, Iic (n : ℝ) = univ := by
    ext x
    simp only [mem_iUnion, mem_Iic, mem_univ, iff_true]
    exact exists_nat_ge x
  have h := tendsto_setIntegral_of_monotone (s := fun n : ℕ => Iic (n : ℝ))
    (f := gauss) (μ := volume) (fun _ => measurableSet_Iic)
    (fun i j hij => Iic_subset_Iic.mpr (Nat.cast_le.mpr hij))
    (by rw [hU]; exact integrable_gauss.integrableOn)
  rw [hU, setIntegral_univ, integral_gauss_total] at h
  exact h

lemma sqrt_two_pi_pos : 0 < Real.sqrt (2 * Real.pi) :=
  Real.sqrt_pos.mpr (by positivity)

lemma stdNormCdf_monotone : Monotone stdNormCdf := by
  intro a b hab
  unfold stdNormCdf
  exact div_le_div_of_nonneg_right (gaussInt_mono hab) sqrt_two_pi_pos.le

lemma stdNormCdf_strictMono : StrictMono stdNormCdf := by
  intro a b hab
  unfold stdNormCdf
  exact div_lt_div_of_pos_right (gaussInt_strictMono hab) sqrt_two_pi_pos

lemma stdNormCdf_zero : stdNormCdf 0 = 1 / 2 := by
  rw [stdNormCdf, gaussInt_zero]
  field_simp
  ring

lemma stdNormCdf_surj_upper {p : ℝ} (h1 : 1 / 2 ≤ p) (h2 : p < 1) :
    ∃ x, stdNormCdf x = p := by
  have hT := sqrt_two_pi_pos
  have hpT : p * Real.sqrt (2 * Real.pi) < Real.sqrt (2 * Real.pi) := by
    nlinarith
  obtain ⟨n, hn⟩ := (tendsto_gaussInt_nat.eventually (eventually_gt_nhds hpT)).exists
  have hmem : p * Real.sqrt (2 * Real.pi) ∈ Icc (gaussInt 0) (gaussInt n) := by
    constructor
    · rw [gaussInt_zero]; nlinarith
    · exact hn.le
  obtain ⟨x, -, hfx⟩ :=
    intermediate_value_Icc (Nat.cast_nonneg n) continuous_gaussInt.continuousOn hmem
  refine ⟨x, ?_⟩
  rw [stdNormCdf, hfx]
  field_simp

lemma normPpf_upper {p : ℝ} (h1 : 1 / 2 < p) (h2 : p < 1) :
    stdNormCdf (normPpf p) = p ∧ 0 < normPpf p := by
  have hex := stdNormCdf_surj_upper h1.le h2
  have heq : stdNormCdf (normPpf p) = p := by
    rw [normPpf, dif_pos hex]
    exact hex.choose_spec
  refine ⟨heq, ?_⟩
  by_contra hle
  push_neg at hle
  have hmono := stdNormCdf_monotone hle
  rw [heq, stdNormCdf_zero] at hmono
  linarith

lemma exp_neg_sq_eq_gauss (t : ℝ) : Real.exp (-t ^ 2) = gauss (Real.sqrt 2 * t) := by
  unfold gauss
  congr 1
  rw [mul_pow, Real.sq_sqrt (by norm_num : (0 : ℝ) ≤ 2)]
  ring

/-- The central identity: the `erfc`-based formula used by the code equals the
standard normal cumulative distribution. -/
lemma erfc_neg_div_sqrt_two (v : ℝ) :
    erfc (-v / Real.sqrt 2) / 2 = stdNormCdf v := by
  have hs2 : (0 : ℝ) < Real.sqrt 2 := Real.sqrt_pos.mpr (by norm_num)
  have h1 : (∫ t in Ioi (-v / Real.sqrt 2), Real.exp (-t ^ 2)) =
      ∫ t in Ioi (-v / Real.sqrt 2), gauss (Real.sqrt 2 * t) :=
    setIntegral_congr_fun measurableSet_Ioi fun t _ => exp_neg_sq_eq_gauss t
  have h2 : (∫ t in Ioi (-v / Real.sqrt 2), gauss (Real.sqrt 2 * t)) =
      (Real.sqrt 2)⁻¹ • ∫ t in Ioi (Real.sqrt 2 * (-v / Real.sqrt 2)), gauss t :=
    integral_comp_mul_left_Ioi gauss _ hs2
  have h3 : Real.sqrt 2 * (-v / Real.sqrt 2) = -v := by
    field_simp
    ring
  have h4 : (∫ t in Ioi (-v), gauss t) = gaussInt v := by
    have h := integral_comp_neg_Ioi (-v) gauss
    rw [neg_neg] at h
    rw [gaussInt, ← h]
    exact setIntegral_congr_fun measurableSet_Ioi fun t _ => (gauss_even t).symm
  have hpi : (0 : ℝ) < Real.sqrt Real.pi := Real.sqrt_pos.mpr Real.pi_pos
  have hsplit : Real.sqrt (2 * Real.pi) = Real.sqrt 2 * Real.sqrt Real.pi :=
    Real.sqrt_mul (by norm_num) _
  rw [erfc, h1, h2, h3, h4, stdNormCdf, smul_eq_mul, hsplit]
  field_simp
  ring

/-! ### Helper lemmas about the model and the fit -/

lemma snrenv_to_pc_length (xs : List ℝ) (k q s m : ℝ) :
    (snrenv_to_pc xs k q s m).length = xs.length :=
  List.length_map _ _

lemma npSub_none {a b : List ℝ} (h1 : a.length ≠ b.length) (h2 : b.length ≠ 1)
    (h3 : a.length ≠ 1) : npSub a b = none := by
  simp only [npSub, if_neg h1, if_neg h2, if_neg h3]

lemma errfcFixed_some_len (xs ys : List ℝ) (s m : ℝ) (p : List ℝ)
    (hlen : xs.length = ys.length) :
    ∃ v, errfcFixed xs ys s m p = some v ∧ v.length = ys.length := by
  have hc : (snrenv_to_pc xs (p.getD 0 0) (p.getD 1 0) s m).length = ys.length := by
    rw [snrenv_to_pc_length, hlen]
  refine ⟨_, by simp only [errfcFixed, npSub]; rw [if_pos hc], ?_⟩
  rw [List.length_zipWith, snrenv_to_pc_length, hlen, min_self]

lemma errfcFree_some_len (xs ys : List ℝ) (m : ℝ) (p : List ℝ)
    (hlen : xs.length = ys.length) :
    ∃ v, errfcFree xs ys m p = some v ∧ v.length = ys.length := by
  have hc : (snrenv_to_pc xs (p.getD 0 0) (p.getD 1 0) (p.getD 2 0) m).length
      = ys.length := by
    rw [snrenv_to_pc_length, hlen]
  refine ⟨_, by simp only [errfcFree, npSub]; rw [if_pos hc], ?_⟩
  rw [List.length_zipWith, snrenv_to_pc_length, hlen, min_self]

lemma fit_obs_free_eq (obs : IdealObs) (xs ys : List ℝ) (so mo : Option ℝ)
    (opt : (List ℝ → Option (List ℝ)) → List ℝ → List ℝ)
    (hs : ¬ truthy so) (hlen : xs.length = ys.length) (hM : 3 ≤ ys.length) :
    obs.fit_obs xs ys so mo opt =
      Except.ok
        { k := (opt (errfcFree xs ys (fitM obs mo)) [obs.k, obs.q, obs.sigma_s]).getD 0 0,
          q := (opt (errfcFree xs ys (fitM obs mo)) [obs.k, obs.q, obs.sigma_s]).getD 1 0,
          sigma_s :=
            (opt (errfcFree xs ys (fitM obs mo)) [obs.k, obs.q, obs.sigma_s]).getD 2 0,
          m := fitM obs mo } := by
  obtain ⟨v, hv, hvlen⟩ :=
    errfcFree_some_len xs ys (fitM obs mo) [obs.k, obs.q, obs.sigma_s] hlen
  have h3 : 3 ≤ v.length := by rw [hvlen]; exact hM
  simp only [IdealObs.fit_obs, if_neg hs, hv, if_pos h3]

lemma fit_obs_fixed_eq (obs : IdealObs) (xs ys : List ℝ) (s : ℝ) (mo : Option ℝ)
    (opt : (List ℝ → Option (List ℝ)) → List ℝ → List ℝ)
    (hs : s ≠ 0) (hlen : xs.length = ys.length) (hM : 2 ≤ ys.length) :
    obs.fit_obs xs ys (some s) mo opt =
      Except.ok
        { k := (opt (errfcFixed xs ys s (fitM obs mo)) [obs.k, obs.q]).getD 0 0,
          q := (opt (errfcFixed xs ys s (fitM obs mo)) [obs.k, obs.q]).getD 1 0,
          sigma_s := s,
          m := fitM obs mo } := by
  obtain ⟨v, hv, hvlen⟩ := errfcFixed_some_len xs ys s (fitM obs mo) [obs.k, obs.q] hlen
  have h2 : 2 ≤ v.length := by rw [hvlen]; exact hM
  have hts : truthy (some s) := hs
  simp only [IdealObs.fit_obs, if_pos hts, Option.getD_some, hv, if_pos h2]

lemma fit_obs_error_eq (obs : IdealObs) (xs ys : List ℝ) (so mo : Option ℝ)
    (opt : (List ℝ → Option (List ℝ)) → List ℝ → List ℝ)
    (h1 : xs.length ≠ ys.length) (h2 : ys.length ≠ 1) (h3 : xs.length ≠ 1) :
    obs.fit_obs xs ys so mo opt = Except.error { obs with m := fitM obs mo } := by
  by_cases hs : truthy so
  · have hnone : errfcFixed xs ys (so.getD 0) (fitM obs mo) [obs.k, obs.q] = none := by
      simp only [errfcFixed]
      exact npSub_none (by rw [snrenv_to_pc_length]; exact h1) h2
        (by rw [snrenv_to_pc_length]; exact h3)
    simp only [IdealObs.fit_obs, if_pos hs, hnone]
  · have hnone : errfcFree xs ys (fitM obs mo) [obs.k, obs.q, obs.sigma_s] = none := by
      simp only [errfcFree]
      exact npSub_none (by rw [snrenv_to_pc_length]; exact h1) h2
        (by rw [snrenv_to_pc_length]; exact h3)
    simp only [IdealObs.fit_obs, if_neg hs, hnone]

lemma afterFit_m (obs : IdealObs) (xs ys : List ℝ) (so mo : Option ℝ)
    (opt : (List ℝ → Option (List ℝ)) → List ℝ → List ℝ) :
    (afterFit (obs.fit_obs xs ys so mo opt)).m = fitM obs mo := by
  by_cases hs : truthy so
  · simp only [IdealObs.fit_obs, if_pos hs]
    cases hv : errfcFixed xs ys (so.getD 0) (fitM obs mo) [obs.k, obs.q] with
    | none => simp [afterFit, hv]
    | some r =>
      by_cases hr : 2 ≤ r.length
      · simp [afterFit, hv, if_pos hr]
      · simp [afterFit, hv, if_neg hr]
  · simp only [IdealObs.fit_obs, if_neg hs]
    cases hv : errfcFree xs ys (fitM obs mo) [obs.k, obs.q, obs.sigma_s] with
    | none => simp [afterFit, hv]
    | some r =>
      by_cases hr : 3 ≤ r.length
      · simp [afterFit, hv, if_pos hr]
      · simp [afterFit, hv, if_neg hr]

lemma fitM_none (obs : IdealObs) : fitM obs none = obs.m := by
  simp [fitM, truthy]

lemma fitM_some_zero (obs : IdealObs) : fitM obs (some 0) = obs.m := by
  simp [fitM, truthy]

lemma fitM_some_ne (obs : IdealObs) {v : ℝ} (hv : v ≠ 0) : fitM obs (some v) = v := by
  have ht : truthy (some v) := hv
  simp [fitM, if_pos ht]

/-! ### Claim C4 -/

/-- Claim C4, counterexample: constructing the model with `m = 1 ≤ 1` and
`sigma_s = -1 < 0` does not fail with any error — the constructor is a total
function that simply stores those invalid values. -/
theorem init_invalid_values_accepted :
    (IdealObs.init 1 (1 / 2) (-1) 1).m = 1 ∧
    (IdealObs.init 1 (1 / 2) (-1) 1).sigma_s = -1 ∧
    (1 : ℝ) ≤ 1 ∧ (-1 : ℝ) < 0 :=
  ⟨rfl, rfl, le_refl 1, by norm_num⟩

/-- Claim C4, amended: construction performs no validation at all.  For every
`k`, `q`, `sigma_s`, `m` — valid or not — it succeeds and stores exactly the
given values, and the default construction stores the documented defaults;
no `InvalidParameter` failure exists. -/
theorem init_stores_values_unconditionally :
    (∀ k q sigma_s m : ℝ, IdealObs.init k q sigma_s m = ⟨k, q, sigma_s, m⟩) ∧
    IdealObs.initDefault = IdealObs.init (Real.sqrt 1.2) 0.5 0.6 8000 :=
  ⟨fun _ _ _ _ => rfl, rfl⟩

/-! ### Claim C10 -/

/-- Claim C10: because `fit_obs` tests its optional arguments by Python
truthiness, an explicitly supplied `sigma_s = 0.0` behaves exactly as if the
argument were omitted (the free vector is `[k, q, sigma_s]` starting from the
model's current values and the supplied `0.0` is neither held fixed nor
stored), and a supplied `m = 0` is likewise ignored in favour of the model's
current `m`. -/
theorem fit_obs_zero_args_treated_as_omitted (obs : IdealObs) (xs ys : List ℝ)
    (so mo : Option ℝ)
    (opt : (List ℝ → Option (List ℝ)) → List ℝ → List ℝ) :
    obs.fit_obs xs ys (some 0) mo opt = obs.fit_obs xs ys none mo opt ∧
    obs.fit_obs xs ys so (some 0) opt = obs.fit_obs xs ys so none opt := by
  constructor
  · have h0 : ¬ truthy (some (0 : ℝ)) := by simp [truthy]
    have hn : ¬ truthy (none : Option ℝ) := by simp [truthy]
    simp only [IdealObs.fit_obs, if_neg h0, if_neg hn]
  · simp only [IdealObs.fit_obs, fitM_some_zero, fitM_none]

/-! ### Claim C7 -/

/-- Claim C7: a supplied `m > 1` replaces the model's `m`, the whole fit runs
as if the model had that `m` with no `m` argument (so the supplied value is
held fixed throughout), and the value persists afterward whether or not the
fit raised; with no `m` supplied the model's current `m` is used and is left
unchanged by the call. -/
theorem fit_obs_m_handling (obs : IdealObs) (xs ys : List ℝ) (so : Option ℝ)
    (opt : (List ℝ → Option (List ℝ)) → List ℝ → List ℝ) (mv : ℝ)
    (hm : 1 < mv) :
    (afterFit (obs.fit_obs xs ys so (some mv) opt)).m = mv ∧
    obs.fit_obs xs ys so (some mv) opt =
      (IdealObs.init obs.k obs.q obs.sigma_s mv).fit_obs xs ys so none opt ∧
    (afterFit (obs.fit_obs xs ys so none opt)).m = obs.m := by
  have hv : mv ≠ 0 := by positivity
  refine ⟨?_, ?_, ?_⟩
  · rw [afterFit_m, fitM_some_ne obs hv]
  · simp only [IdealObs.fit_obs, IdealObs.init, fitM_some_ne obs hv, fitM_none]
  · rw [afterFit_m, fitM_none]

/-- Witness for claim C7 at concrete inputs. -/
theorem fit_obs_m_handling_witness :
    (1 : ℝ) < 2 ∧
    (afterFit ((IdealObs.init 1 1 1 8).fit_obs [1] [1] none (some 2)
      (fun _ p => p))).m = 2 :=
  ⟨by norm_num,
    (fit_obs_m_handling (IdealObs.init 1 1 1 8) [1] [1] none (fun _ p => p) 2
      (by norm_num)).1⟩

/-! ### Claim C3 -/

/-- Claim C3 (code bug evidence): `fit_obs` is a pure pass-through of the raw
optimizer return value.  On every input whose shapes `leastsq` accepts (equal
lengths, at least as many residuals as the three free parameters), and for
every possible optimizer behaviour `opt` — including one returning non-finite
parameters — the components of the raw result are stored unconditionally into
`k`, `q`, `sigma_s` and the method returns normally; no convergence or
finiteness check of any kind occurs, so no `ConvergenceFailure` can ever be
raised. -/
theorem fit_obs_stores_raw_optimizer_result (obs : IdealObs) (xs ys : List ℝ)
    (opt : (List ℝ → Option (List ℝ)) → List ℝ → List ℝ)
    (hlen : xs.length = ys.length) (hM : 3 ≤ ys.length) :
    obs.fit_obs xs ys none none opt =
      Except.ok
        { k := (opt (errfcFree xs ys obs.m) [obs.k, obs.q, obs.sigma_s]).getD 0 0,
          q := (opt (errfcFree xs ys obs.m) [obs.k, obs.q, obs.sigma_s]).getD 1 0,
          sigma_s :=
            (opt (errfcFree xs ys obs.m) [obs.k, obs.q, obs.sigma_s]).getD 2 0,
          m := obs.m } := by
  have h := fit_obs_free_eq obs xs ys none none opt (by simp [truthy]) hlen hM
  rwa [fitM_none] at h

/-- Witness for claim C3 at concrete inputs: an optimizer that returns its
initial vector unchanged has that vector stored verbatim. -/
theorem fit_obs_stores_raw_optimizer_result_witness :
    ([1, 2, 3] : List ℝ).length = ([1, 2, 3] : List ℝ).length ∧
    3 ≤ ([1, 2, 3] : List ℝ).length ∧
    (IdealObs.init 1 1 1 8).fit_obs [1, 2, 3] [1, 2, 3] none none (fun _ p => p) =
      Except.ok (IdealObs.init 1 1 1 8) := by
  refine ⟨rfl, by norm_num, ?_⟩
  rw [fit_obs_stores_raw_optimizer_result (IdealObs.init 1 1 1 8) [1, 2, 3]
    [1, 2, 3] (fun _ p => p) rfl (by norm_num)]
  rfl

/-! ### Claim C2 -/

/-- Claim C2, counterexample: supplying `sigma_s = 0.0` (which satisfies
`sigma_s ≥ 0`) does not leave the stored `sigma_s` equal to the supplied
value: on a model whose current `sigma_s` is `3/5`, a fit call supplying
`sigma_s = 0` ends with `sigma_s = 3/5 ≠ 0` (the argument is falsy, so the
free-parameter branch runs and the optimizer result is stored instead). -/
theorem fit_obs_sigma_zero_not_stored :
    (afterFit ((IdealObs.init 1 1 (3 / 5) 8).fit_obs [1] [1] (some 0) none
      (fun _ p => p))).sigma_s = 3 / 5 ∧ (3 / 5 : ℝ) ≠ 0 := by
  constructor
  · have hn0 : ¬ truthy (some (0 : ℝ)) := by simp [truthy]
    simp [IdealObs.fit_obs, if_neg hn0, errfcFree, npSub, snrenv_to_pc, fitM,
      truthy, IdealObs.init, afterFit]
  · norm_num

/-- Claim C2, amended: for every supplied `sigma_s ≠ 0` (in particular every
`sigma_s > 0`), the value is held fixed during the fit — the free vector is
`[k, q]` — and whenever the call returns normally the model's stored
`sigma_s` equals the supplied value exactly, regardless of initial state.
A supplied `0.0` is instead treated as an omitted argument. -/
theorem fit_obs_fixed_sigma_stored (obs : IdealObs) (xs ys : List ℝ) (s : ℝ)
    (mo : Option ℝ) (opt : (List ℝ → Option (List ℝ)) → List ℝ → List ℝ)
    (res : IdealObs) (hs : s ≠ 0)
    (h : obs.fit_obs xs ys (some s) mo opt = Except.ok res) :
    res.sigma_s = s := by
  have hts : truthy (some s) := hs
  simp only [IdealObs.fit_obs, if_pos hts, Option.getD_some] at h
  split at h
  · simp at h
  · split at h
    · simp only [Except.ok.injEq] at h
      rw [← h]
    · simp at h

/-- Witness for claim C2's amended theorem at concrete inputs. -/
theorem fit_obs_fixed_sigma_stored_witness :
    (1 / 2 : ℝ) ≠ 0 ∧
    (afterFit ((IdealObs.init 1 1 (3 / 5) 8).fit_obs [1, 2] [1, 2] (some (1 / 2))
      none (fun _ p => p))).sigma_s = 1 / 2 := by
  have hs : (1 / 2 : ℝ) ≠ 0 := by norm_num
  have heq := fit_obs_fixed_eq (IdealObs.init 1 1 (3 / 5) 8) [1, 2] [1, 2] (1 / 2)
    none (fun _ p => p) hs rfl (by norm_num)
  refine ⟨hs, ?_⟩
  have hres := fit_obs_fixed_sigma_stored (IdealObs.init 1 1 (3 / 5) 8) [1, 2]
    [1, 2] (1 / 2) none (fun _ p => p) _ hs heq
  rw [heq]
  exact hres

/-! ### Claim C5 -/

/-- Claim C5, counterexample: with `metric` of length 5 and `observed_pc` of
length 1 — unequal lengths — `fit_obs` raises nothing at all: numpy
broadcasting accepts the length-1 operand, the broadcast residual has 5
elements for the 3 free parameters so `leastsq` accepts the input, and the
fit runs to completion and returns normally. -/
theorem fit_obs_unequal_lengths_no_error :
    ([1, 2, 3, 4, 5] : List ℝ).length ≠ ([1] : List ℝ).length ∧
    (IdealObs.init 1 1 1 8).fit_obs [1, 2, 3, 4, 5] [1] none none
      (fun _ p => p) = Except.ok (IdealObs.init 1 1 1 8) := by
  constructor
  · simp
  · have hn : ¬ truthy (none : Option ℝ) := by simp [truthy]
    simp [IdealObs.fit_obs, if_neg hn, errfcFree, npSub, snrenv_to_pc, fitM,
      truthy, IdealObs.init, List.getD]

/-- Claim C5, amended: there is no eager shape validation and no dedicated
`ShapeMismatch` error.  When the lengths differ and neither is 1, the
failure is an elementwise broadcast error raised from the first residual
evaluation inside the optimizer call — by which time a supplied (truthy) `m`
has already been stored on the model, as the error state records.  When
either length is 1, broadcasting applies: the call completes with no error
whenever the broadcast residual has at least as many elements as free
parameters, and otherwise fails only with the optimizer's improper-input
check — again after any supplied `m` was stored, and never as a
`ShapeMismatch`. -/
theorem fit_obs_shape_mismatch_behaviour (obs : IdealObs) (xs ys : List ℝ)
    (so mo : Option ℝ) (opt : (List ℝ → Option (List ℝ)) → List ℝ → List ℝ)
    (h1 : xs.length ≠ ys.length) (h2 : ys.length ≠ 1) (h3 : xs.length ≠ 1) :
    obs.fit_obs xs ys so mo opt = Except.error { obs with m := fitM obs mo } :=
  fit_obs_error_eq obs xs ys so mo opt h1 h2 h3

/-- Witness for claim C5's amended theorem: unequal lengths 2 and 3 raise the
broadcast error, and the error-time state already holds the supplied
`m = 2` — the model was mutated before the failure. -/
theorem fit_obs_shape_mismatch_behaviour_witness :
    ([1, 2] : List ℝ).length ≠ ([1, 2, 3] : List ℝ).length ∧
    ([1, 2, 3] : List ℝ).length ≠ 1 ∧ ([1, 2] : List ℝ).length ≠ 1 ∧
    (IdealObs.init 1 1 1 8).fit_obs [1, 2] [1, 2, 3] none (some 2)
      (fun _ p => p) = Except.error (IdealObs.init 1 1 1 2) := by
  refine ⟨by simp, by simp, by simp, ?_⟩
  have h := fit_obs_shape_mismatch_behaviour (IdealObs.init 1 1 1 8) [1, 2]
    [1, 2, 3] none (some 2) (fun _ p => p) (by simp) (by simp) (by simp)
  rw [h, fitM_some_ne _ (by norm_num : (2 : ℝ) ≠ 0)]
  rfl

/-! ### Claim C6 -/

/-- Claim C6: for fixed `k > 0`, `q > 0`, `sigma_s ≥ 0`, `m > 1`, the
statistical transform is non-decreasing in the metric value over the
non-negative domain. -/
theorem snrenv_to_pc_mono_in_metric (k q sigma_s m a b : ℝ) (hk : 0 < k)
    (hq : 0 < q) (hs : 0 ≤ sigma_s) (hm : 1 < m) (ha : 0 ≤ a) (hab : a ≤ b) :
    snrenv_to_pc_scalar a k q sigma_s m ≤ snrenv_to_pc_scalar b k q sigma_s m := by
  simp only [snrenv_to_pc_scalar, normCdf]
  apply mul_le_mul_of_nonneg_right _ (by norm_num : (0 : ℝ) ≤ 100)
  apply stdNormCdf_monotone
  have hdp : k * a ^ q ≤ k * b ^ q :=
    mul_le_mul_of_nonneg_left (Real.rpow_le_rpow ha hab hq.le) hk.le
  exact div_le_div_of_nonneg_right (sub_le_sub_right hdp _) (Real.sqrt_nonneg _)

/-- Witness for claim C6 at concrete inputs. -/
theorem snrenv_to_pc_mono_in_metric_witness :
    (0 : ℝ) < 1 ∧ (0 : ℝ) < 1 ∧ (0 : ℝ) ≤ 0 ∧ (1 : ℝ) < 2 ∧ (0 : ℝ) ≤ 0 ∧
    (0 : ℝ) ≤ 1 ∧
    snrenv_to_pc_scalar 0 1 1 0 2 ≤ snrenv_to_pc_scalar 1 1 1 0 2 :=
  ⟨by norm_num, by norm_num, le_refl 0, by norm_num, le_refl 0, by norm_num,
    snrenv_to_pc_mono_in_metric 1 1 0 2 0 1 (by norm_num) (by norm_num)
      (le_refl 0) (by norm_num) (le_refl 0) (by norm_num)⟩

/-! ### Claim C8 -/

/-- Claim C8: when the exponent `q` is not an integer, the elementwise
transform never raises — each negative metric value yields a NaN marker for
that element only, every non-negative element is computed normally, and the
call still returns an array of the input's length. -/
theorem snrenv_to_pc_negative_base_nan (xs : List ℝ) (k q sigma_s m : ℝ)
    (hq : ∀ n : ℤ, (n : ℝ) ≠ q) :
    snrenv_to_pc_float xs k q sigma_s m =
      xs.map (fun x => if x < 0 then none
        else some (snrenv_to_pc_scalar x k q sigma_s m)) ∧
    (snrenv_to_pc_float xs k q sigma_s m).length = xs.length := by
  constructor
  · unfold snrenv_to_pc_float
    apply List.map_congr_left
    intro x _
    unfold snrenv_to_pc_elt
    by_cases hx : x < 0
    · rw [if_pos ⟨hx, hq⟩, if_pos hx]
    · rw [if_neg (fun hc => hx hc.1), if_neg hx]
  · exact List.length_map _ _

/-- Witness for claim C8 at concrete inputs: metric `[-1, 1]` with exponent
`q = 1/2` gives NaN for the negative element only and an ordinary value for
the non-negative one. -/
theorem snrenv_to_pc_negative_base_nan_witness :
    (∀ n : ℤ, (n : ℝ) ≠ 1 / 2) ∧
    snrenv_to_pc_float [-1, 1] 1 (1 / 2) 0 8 =
      [none, some (snrenv_to_pc_scalar 1 1 (1 / 2) 0 8)] ∧
    (snrenv_to_pc_float [-1, 1] 1 (1 / 2) 0 8).length
      = ([-1, 1] : List ℝ).length := by
  have hq : ∀ n : ℤ, (n : ℝ) ≠ 1 / 2 := by
    intro n hn
    have h2 : ((2 * n : ℤ) : ℝ) = ((1 : ℤ) : ℝ) := by push_cast; linarith
    have h3 := Int.cast_injective h2
    omega
  obtain ⟨h1, h2⟩ := snrenv_to_pc_negative_base_nan [-1, 1] 1 (1 / 2) 0 8 hq
  refine ⟨hq, ?_, h2⟩
  rw [h1]
  norm_num

/-! ### Claim C9 -/

/-- Claim C9: for every input sequence and `sigma ≠ 0`, `psy_fn` returns
elementwise `100 · erfc(-(x - mu)/(√2·sigma))/2`, which equals `100` times
the standard normal cumulative distribution of `(x - mu)/sigma`; and at the
midpoint, `psy_fn [0] 0 1 = [50]` exactly. -/
theorem psy_fn_is_gaussian_cdf (xs : List ℝ) (mu sigma : ℝ) (hs : sigma ≠ 0) :
    psy_fn xs mu sigma = xs.map (fun x => 100 * stdNormCdf ((x - mu) / sigma)) ∧
    psy_fn [0] 0 1 = [50] := by
  have key : ∀ x mu sigma : ℝ,
      100 * erfc (-(x - mu) / (Real.sqrt 2 * sigma)) / 2 =
        100 * stdNormCdf ((x - mu) / sigma) := by
    intro x mu sigma
    have harg : -(x - mu) / (Real.sqrt 2 * sigma)
        = -((x - mu) / sigma) / Real.sqrt 2 := by
      ring
    rw [harg, mul_div_assoc, erfc_neg_div_sqrt_two]
  constructor
  · unfold psy_fn
    apply List.map_congr_left
    intro x _
    exact key x mu sigma
  · unfold psy_fn
    rw [List.map_cons, List.map_nil, key 0 0 1]
    norm_num [stdNormCdf_zero]

/-- Witness for claim C9 at concrete inputs. -/
theorem psy_fn_is_gaussian_cdf_witness :
    (1 : ℝ) ≠ 0 ∧
    psy_fn [0] 0 1 = [50] :=
  ⟨by norm_num, (psy_fn_is_gaussian_cdf [0] 0 1 (by norm_num)).2⟩

/-! ### Claim C1 -/

/-- Claim C1, counterexample: the transform the code computes differs from
the formula the specification states.  At metric `[1]` with `k = 1`, `q = 1`,
`sigma_s = 0`, `m = 4`, the code's bias shift `Un + 0.577/Un` is strictly
smaller than the specified `Un + 0.5772/Un` (here `Un = normPpf(3/4) > 0`),
and the strictly monotone Gaussian distribution maps the two shifts to
different outputs. -/
theorem snrenv_to_pc_ne_spec_formula :
    snrenv_to_pc [1] 1 1 0 4 ≠ snrenv_to_pc_spec [1] 1 1 0 4 := by
  intro h
  simp only [snrenv_to_pc, snrenv_to_pc_spec, snrenv_to_pc_scalar, normCdf,
    List.map_cons, List.map_nil, List.cons.injEq, and_true, Real.one_rpow,
    one_mul, show (1 : ℝ) - 1 / 4 = 3 / 4 by norm_num] at h
  obtain ⟨-, hUn⟩ := normPpf_upper (p := 3 / 4) (by norm_num) (by norm_num)
  set Un := normPpf (3 / 4) with hUdef
  have hsn : (0 : ℝ) < 1.28255 / Un := div_pos (by norm_num) hUn
  have hsqrt : Real.sqrt ((0 : ℝ) ^ 2 + (1.28255 / Un) ^ 2) = 1.28255 / Un := by
    rw [show (0 : ℝ) ^ 2 + (1.28255 / Un) ^ 2 = (1.28255 / Un) ^ 2 by ring,
      Real.sqrt_sq hsn.le]
  rw [hsqrt] at h
  have hshift : Un + (0.577 : ℝ) / Un < Un + (0.5772 : ℝ) / Un := by
    have hd : (0.577 : ℝ) / Un < 0.5772 / Un :=
      div_lt_div_of_pos_right (by norm_num) hUn
    linarith
  have harg : ((1 : ℝ) - (Un + 0.5772 / Un)) / (1.28255 / Un) <
      ((1 : ℝ) - (Un + 0.577 / Un)) / (1.28255 / Un) :=
    div_lt_div_of_pos_right (by linarith) hsn
  have hcdf := stdNormCdf_strictMono harg
  linarith [hcdf, h]

/-- Claim C1, amended: the transform returns, elementwise, 100 times the
normal cumulative distribution of `dp = k·x^q` with mean `un` and standard
deviation `sqrt(sigma_s² + sn²)`, where `Un` is the standard normal quantile
at `1 - 1/m`, `sn = 1.28255/Un` and `un = Un + 0.577/Un` — the code's shift
constant is `0.577`, not the `0.5772` the specification states. -/
theorem snrenv_to_pc_closed_form (xs : List ℝ) (k q sigma_s m : ℝ)
    (hm : 1 < m) :
    snrenv_to_pc xs k q sigma_s m =
      xs.map fun x =>
        100 * normCdf (k * x ^ q)
          (normPpf (1 - 1 / m) + 0.577 / normPpf (1 - 1 / m))
          (Real.sqrt (sigma_s ^ 2 + (1.28255 / normPpf (1 - 1 / m)) ^ 2)) := by
  unfold snrenv_to_pc
  apply List.map_congr_left
  intro x _
  simp only [snrenv_to_pc_scalar]
  ring

/-- Witness for claim C1's amended theorem at concrete inputs. -/
theorem snrenv_to_pc_closed_form_witness :
    (1 : ℝ) < 2 ∧
    snrenv_to_pc [0] 1 1 0 2 =
      [100 * normCdf (1 * (0 : ℝ) ^ (1 : ℝ))
        (normPpf (1 - 1 / 2) + 0.577 / normPpf (1 - 1 / 2))
        (Real.sqrt ((0 : ℝ) ^ 2 + (1.28255 / normPpf (1 - 1 / 2)) ^ 2))] :=
  ⟨by norm_num, snrenv_to_pc_closed_form [0] 1 1 0 2 (by norm_num)⟩

end Pambox
